import Mathlib

/-!
Shallow embedding of `cli/ops/fs_events.rs` (Deno's file-system events ops):
the `FsEvent` normalizer, the bounded (capacity-16) lossy event channel, the
resource table and `op_fs_events_poll`, `create_resource` / `op_fs_events_open`,
and the `file_watcher` filtered loop.
-/

set_option autoImplicit false

namespace FsEvents

/-- Filesystem paths (`PathBuf` in the source) are modelled as strings. -/
abbrev Path := String

/-- `notify::EventKind`. The sub-kind payloads (`AccessKind`, `CreateKind`, …)
are irrelevant to the mapping in the source, which ignores them with `_`;
they are modelled as a `Nat` tag. -/
inductive EventKind where
  | Any
  | Access (sub : Nat)
  | Create (sub : Nat)
  | Modify (sub : Nat)
  | Remove (sub : Nat)
  | Other
deriving DecidableEq, Repr

/-- `notify::event::Event`: a raw notification, a kind plus affected paths. -/
structure NotifyEvent where
  kind : EventKind
  paths : List Path
deriving DecidableEq, Repr

/-- `struct FsEvent { kind: String, paths: Vec<PathBuf> }`. -/
structure FsEvent where
  kind : String
  paths : List Path
deriving DecidableEq, Repr

/-- `impl From<NotifyEvent> for FsEvent`. The `EventKind::Other` arm is
`todo!()` in the source — a panic, modelled as `none`; every other arm
produces the corresponding tag string and copies `e.paths`. -/
def FsEvent.fromNotify (e : NotifyEvent) : Option FsEvent :=
  match e.kind with
  | .Any => some ⟨"any", e.paths⟩
  | .Access _ => some ⟨"access", e.paths⟩
  | .Create _ => some ⟨"create", e.paths⟩
  | .Modify _ => some ⟨"modify", e.paths⟩
  | .Remove _ => some ⟨"remove", e.paths⟩
  | .Other => none

/-- Errors crossing the op boundary (`ErrBox` / `OpError` in the source):
watcher-library errors, permission-check rejections, and the bad-resource-id
error produced by `op_fs_events_poll` on an unknown handle. -/
inductive Err where
  | notify (msg : String)
  | permission (path : Path)
  | badResourceId
deriving DecidableEq, Repr

/-- Minimal model of `serde_json::Value`, enough for the wire shapes this
module produces (`null` models `Value::Null`, used when indexing misses). -/
inductive Json where
  | null
  | str (s : String)
  | bool (b : Bool)
  | arr (xs : List Json)
  | obj (fields : List (String × Json))
deriving Repr

def findField : List (String × Json) → String → Option Json
  | [], _ => none
  | (k, v) :: rest, key => if k = key then some v else findField rest key

/-- `value[key]` on `serde_json::Value`: field lookup on objects, `Null`
on a missing field or a non-object. -/
def Json.get (j : Json) (key : String) : Json :=
  match j with
  | .obj fields =>
    match findField fields key with
    | some v => v
    | none => .null
  | _ => .null

def Json.isObject : Json → Bool
  | .obj _ => true
  | _ => false

def Json.isString : Json → Bool
  | .str _ => true
  | _ => false

/-- `Value == &str`: true exactly when the value is that string
(serde_json's `PartialEq<str>` instance). -/
def Json.eqStr (j : Json) (s : String) : Bool :=
  match j with
  | .str t => t = s
  | _ => false

/-- Serde serialization of `FsEvent` (`#[derive(Serialize)]`): an object with
the struct's fields in declaration order, `kind` then `paths`. -/
def FsEvent.toJson (e : FsEvent) : Json :=
  Json.obj [("kind", Json.str e.kind), ("paths", Json.arr (e.paths.map Json.str))]

/-- Modelled from the spec: deserialization of the `FsEvent` wire shape.
The source derives only `Serialize` for `FsEvent`; the spec's round-trip
property (§8) needs the inverse, so this follows the spec's wire shape —
"an object with `kind` (one of the five string tags) and `paths` (array of
strings). No other fields." -/
def FsEvent.fromJsonSpec : Json → Option FsEvent
  | .obj [("kind", Json.str k), ("paths", Json.arr ps)] =>
    (pathsOfJson ps).map (fun paths => ⟨k, paths⟩)
  | _ => none
where
  pathsOfJson : List Json → Option (List Path)
    | [] => some []
    | Json.str s :: rest => (pathsOfJson rest).map (s :: ·)
    | _ => none

/-- `tokio::sync::mpsc` channel capacity used by `create_resource`. -/
def chanCapacity : Nat := 16

/-- A bounded mpsc channel: the queued items (sender order) and whether the
producer side has been dropped (channel closed). -/
structure Channel (α : Type) where
  queue : List α
  closed : Bool
deriving DecidableEq, Repr

def Channel.empty {α : Type} : Channel α := ⟨[], false⟩

/-- `Sender::try_send`, result ignored by the watcher callback (`let _ = …`):
a no-op when the channel is closed, drops the new item when the queue already
holds `chanCapacity` items, appends otherwise. Never blocks, never retries,
never surfaces an error. -/
def Channel.trySend {α : Type} (c : Channel α) (x : α) : Channel α :=
  if c.closed then c
  else if c.queue.length < chanCapacity then { c with queue := c.queue ++ [x] }
  else c

/-- `try_send` each item of `xs` in order. -/
def Channel.sendAll {α : Type} (c : Channel α) (xs : List α) : Channel α :=
  xs.foldl Channel.trySend c

/-- The three-way result of `Receiver::poll_recv`: `ready (some x)` is a
delivered item, `ready none` is end-of-stream (producer dropped, queue
empty), `pending` suspends the caller. -/
inductive PollRes (α : Type) where
  | ready (x : Option α)
  | pending
deriving DecidableEq, Repr

/-- `Receiver::poll_recv`: pop the oldest queued item if any; otherwise
end-of-stream when closed, else pending. Returns the updated channel. -/
def Channel.pollRecv {α : Type} (c : Channel α) : PollRes α × Channel α :=
  match c.queue with
  | x :: rest => (.ready (some x), { c with queue := rest })
  | [] => if c.closed then (.ready none, c) else (.pending, c)

/-- Drain a channel by repeated `pollRecv`, collecting delivered items until
the first non-item result (end-of-stream or pending). `fuel` bounds the
number of polls. -/
def Channel.drainReady {α : Type} (c : Channel α) : Nat → List α
  | 0 => []
  | fuel + 1 =>
    match c.pollRecv with
    | (.ready (some x), c2) => x :: c2.drainReady fuel
    | _ => []

deriving instance DecidableEq for Except

/-- One item flowing through a bridge's channel:
`Result<FsEvent, ErrBox>` in the source. -/
abbrev Item := Except Err FsEvent

/-- `struct FsEventsResource`: the kept-alive watcher (modelled by the list
of paths it has registered) and the receiver end of the channel. -/
structure FsEventsResource where
  watcherPaths : List Path
  receiver : Channel Item
deriving DecidableEq, Repr

/-- The isolate's resource table, restricted to `FsEventsResource` entries:
an association list from resource id (`u32`) to resource. -/
abbrev Registry := List (Nat × FsEventsResource)

def Registry.find : Registry → Nat → Option FsEventsResource
  | [], _ => none
  | (k, r) :: rest, rid => if k = rid then some r else Registry.find rest rid

/-- Replace the resource stored under `rid` (models the in-place update a
`get_mut` borrow performs). -/
def Registry.set : Registry → Nat → FsEventsResource → Registry
  | [], _, _ => []
  | (k, r) :: rest, rid, res =>
    if k = rid then (k, res) :: rest else (k, r) :: Registry.set rest rid res

/-- `ResourceTable::close`/drop: remove every entry under `rid`; the removed
resource (watcher and receiver) is dropped with it. -/
def Registry.remove : Registry → Nat → Registry
  | [], _ => []
  | (k, r) :: rest, rid =>
    if k = rid then Registry.remove rest rid else (k, r) :: Registry.remove rest rid

/-- `RecursiveMode` of the notify crate. -/
inductive RecursiveMode where
  | Recursive
  | NonRecursive
deriving DecidableEq, Repr

/-- Outcome of one poll of the future returned by `op_fs_events_poll`:
still pending, resolved with a JSON value, or resolved with an error. -/
inductive PollOutcome where
  | pending
  | ok (j : Json)
  | err (e : Err)
deriving Repr

/-- The `{ "value": …, "done": false }` JSON built for a delivered event. -/
def valueJson (v : FsEvent) : Json :=
  Json.obj [("value", v.toJson), ("done", Json.bool false)]

/-- The `{ "done": true }` JSON built at end-of-stream. -/
def doneJson : Json := Json.obj [("done", Json.bool true)]

/-- One poll of the future built by `op_fs_events_poll`: look the resource up
by id on every poll (unknown id is `OpError::bad_resource_id`), then
`poll_recv` its receiver and map the result:
`Some(Ok(v))` to `{value, done:false}`, `Some(Err(e))` to that error,
`None` to `{done:true}`. Returns the updated table. -/
def opFsEventsPoll (table : Registry) (rid : Nat) : PollOutcome × Registry :=
  match table.find rid with
  | none => (.err .badResourceId, table)
  | some res =>
    match res.receiver.pollRecv with
    | (.pending, c2) => (.pending, table.set rid { res with receiver := c2 })
    | (.ready (some (Except.ok v)), c2) =>
      (.ok (valueJson v), table.set rid { res with receiver := c2 })
    | (.ready (some (Except.error e)), c2) =>
      (.err e, table.set rid { res with receiver := c2 })
    | (.ready none, c2) => (.ok doneJson, table.set rid { res with receiver := c2 })

/-- The `for path in paths` loop of `create_resource`: for each path in
order, run `state.check_read(path)?` when a state is supplied, then
`watcher.watch(path, mode)?`; stop at the first error. `watchFn` models the
underlying notify watcher's registration, which may itself fail. Returns the
loop's result together with the side-effect log: the paths the permission
check was invoked on and the paths registered with the watcher, in order. -/
def registerPaths (watchFn : Path → RecursiveMode → Except Err Unit)
    (check : Option (Path → Except Err Unit)) (mode : RecursiveMode) :
    List Path → Except Err Unit × List Path × List Path
  | [] => (.ok (), [], [])
  | p :: rest =>
    let checkedHere : List Path := match check with
      | some _ => [p]
      | none => []
    let ckRes : Except Err Unit := match check with
      | some ck => ck p
      | none => .ok ()
    match ckRes with
    | .error e => (.error e, checkedHere, [])
    | .ok () =>
      match watchFn p mode with
      | .error e => (.error e, checkedHere, [])
      | .ok () =>
        let (r, cs, rs) := registerPaths watchFn check mode rest
        (r, checkedHere ++ cs, p :: rs)

/-- `create_resource`: build the channel (empty, capacity 16) and watcher,
register every path (permission-checking each first when a state is
supplied), and return the resource — or the first error, in which case the
partly-registered watcher is dropped and no resource escapes. The second and
third components expose the side-effect log of `registerPaths`. -/
def createResource (watchFn : Path → RecursiveMode → Except Err Unit)
    (paths : List Path) (mode : RecursiveMode)
    (check : Option (Path → Except Err Unit)) :
    Except Err FsEventsResource × List Path × List Path :=
  let (r, cs, rs) := registerPaths watchFn check mode paths
  match r with
  | .error e => (.error e, cs, rs)
  | .ok () => (.ok ⟨rs, Channel.empty⟩, cs, rs)

/-- Next resource id handed out by `ResourceTable::add`. -/
def freshId (t : Registry) : Nat :=
  t.foldl (fun m p => max m (p.1 + 1)) 0

/-- `op_fs_events_open`: choose the recursive mode from the `recursive`
flag, call `create_resource` with the state's permission check, and on
success store the resource in the table under a fresh id, returning the id.
The side-effect log of `createResource` is passed through. -/
def opFsEventsOpen (watchFn : Path → RecursiveMode → Except Err Unit)
    (check : Path → Except Err Unit) (paths : List Path) (recursive : Bool)
    (table : Registry) :
    Except Err (Nat × Registry) × List Path × List Path :=
  let mode := if recursive then RecursiveMode.Recursive else RecursiveMode.NonRecursive
  let (r, cs, rs) := createResource watchFn paths mode (some check)
  match r with
  | .error e => (.error e, cs, rs)
  | .ok res => (.ok (freshId table, (freshId table, res) :: table), cs, rs)

/-- What one iteration of `file_watcher`'s loop observes when its await
resolves: a delivered event, a producer-side error, or end-of-stream. -/
inductive StreamItem where
  | event (e : FsEvent)
  | error (e : Err)
  | endOfStream
deriving DecidableEq, Repr

/-- The JSON (or error) the awaited `poll_fn` future of one `file_watcher`
iteration resolves to, exactly as in `op_fs_events_poll`'s mapping. -/
def stepJson : StreamItem → Except Err Json
  | .event v => .ok (valueJson v)
  | .error e => .error e
  | .endOfStream => .ok doneJson

/-- The filter `file_watcher` applies to the resolved JSON:
`res["value"].is_object() && res["value"]["kind"].is_string()` and the kind
equals `"create"`, `"modify"` or `"remove"`. -/
def isInterestingRes (res : Json) : Bool :=
  (res.get "value").isObject && ((res.get "value").get "kind").isString &&
    (let kind := (res.get "value").get "kind"
     kind.eqStr "create" || kind.eqStr "modify" || kind.eqStr "remove")

/-- The three event kinds `file_watcher` treats as interesting. -/
def interestingKind (k : String) : Bool :=
  k = "create" || k = "modify" || k = "remove"

/-- `file_watcher`'s loop over the successive await outcomes: propagate an
error (`f.await?`), return the resolved JSON when the filter accepts it, and
otherwise loop — which in the source builds a brand-new bridge. The input
list is the stream of outcomes the successive awaits resolve to; `ok none`
means the stream ended with the loop still watching (no result yet). -/
def fileWatcher : List StreamItem → Except Err (Option Json)
  | [] => .ok none
  | item :: rest =>
    match stepJson item with
    | .error e => .error e
    | .ok res => if isInterestingRes res then .ok (some res) else fileWatcher rest

/-- `file_watcher` at the granularity of bridges: each element of the outer
list is the full sequence of items the fresh bridge built by that iteration
would deliver. The iteration awaits exactly one item from its bridge — the
first — and then the bridge (with everything still queued) is dropped; an
empty segment is a bridge that never yields, leaving the loop suspended
forever (`ok none`). -/
def fileWatcherSegs : List (List StreamItem) → Except Err (Option Json)
  | [] => .ok none
  | [] :: _ => .ok none
  | (item :: _extra) :: rest =>
    match stepJson item with
    | .error e => .error e
    | .ok res => if isInterestingRes res then .ok (some res) else fileWatcherSegs rest

/-! ## Theorems -/

/-- C7: normalizing a raw notification with kind `Any`, `Access`, `Create`,
`Modify` or `Remove` yields the kind string `"any"`, `"access"`, `"create"`,
`"modify"` or `"remove"` respectively, whatever the sub-kind, and copies the
paths sequence unchanged (same order, same length, duplicates and emptiness
preserved). The conversion is a pure Lean function of the input. -/
theorem fromNotify_maps_kinds_copies_paths :
    (∀ ps : List Path, FsEvent.fromNotify ⟨.Any, ps⟩ = some ⟨"any", ps⟩) ∧
    (∀ (sub : Nat) (ps : List Path),
      FsEvent.fromNotify ⟨.Access sub, ps⟩ = some ⟨"access", ps⟩) ∧
    (∀ (sub : Nat) (ps : List Path),
      FsEvent.fromNotify ⟨.Create sub, ps⟩ = some ⟨"create", ps⟩) ∧
    (∀ (sub : Nat) (ps : List Path),
      FsEvent.fromNotify ⟨.Modify sub, ps⟩ = some ⟨"modify", ps⟩) ∧
    (∀ (sub : Nat) (ps : List Path),
      FsEvent.fromNotify ⟨.Remove sub, ps⟩ = some ⟨"remove", ps⟩) :=
  ⟨fun _ => rfl, fun _ _ => rfl, fun _ _ => rfl, fun _ _ => rfl, fun _ _ => rfl⟩

/-- C8: normalizing a notification of kind `Other` is a hard failure (the
`todo!()` panic, modelled as `none`); and whenever the raw kind is not
`Other`, normalization succeeds and the produced kind is one of the five
tags — the failure branch is unreachable under that precondition. -/
theorem fromNotify_other_fatal_else_five_tags :
    (∀ ps : List Path, FsEvent.fromNotify ⟨.Other, ps⟩ = none) ∧
    (∀ e : NotifyEvent, e.kind ≠ EventKind.Other →
      FsEvent.fromNotify e ≠ none) ∧
    (∀ e : NotifyEvent, e.kind ≠ EventKind.Other →
      ∀ f, FsEvent.fromNotify e = some f →
        f.kind ∈ (["any", "access", "create", "modify", "remove"] : List String)) := by
  refine ⟨fun _ => rfl, ?_, ?_⟩
  · intro e h
    obtain ⟨k, ps⟩ := e
    cases k <;> simp [FsEvent.fromNotify] at h ⊢
  · intro e h f hf
    obtain ⟨k, ps⟩ := e
    cases k <;> simp [FsEvent.fromNotify] at hf h ⊢ <;> simp [← hf]

/-- Witness for C8 at the concrete notification
`⟨Create 0, ["/tmp/x"]⟩`: its kind is not `Other`, normalization does not
fail, and the produced kind is among the five tags. -/
theorem fromNotify_other_fatal_else_five_tags_witness :
    (⟨EventKind.Create 0, ["/tmp/x"]⟩ : NotifyEvent).kind ≠ EventKind.Other ∧
    FsEvent.fromNotify ⟨EventKind.Create 0, ["/tmp/x"]⟩ ≠ none ∧
    (⟨"create", ["/tmp/x"]⟩ : FsEvent).kind ∈
      (["any", "access", "create", "modify", "remove"] : List String) :=
  ⟨by decide,
   fromNotify_other_fatal_else_five_tags.2.1 ⟨EventKind.Create 0, ["/tmp/x"]⟩ (by decide),
   fromNotify_other_fatal_else_five_tags.2.2 ⟨EventKind.Create 0, ["/tmp/x"]⟩ (by decide)
     ⟨"create", ["/tmp/x"]⟩ rfl⟩

/-- C9: serializing a `create` event with paths `["/tmp/x"]` yields exactly
the object `{"kind":"create","paths":["/tmp/x"]}` (those two fields and no
others), and deserializing that object (deserialization modelled from the
spec's wire shape) yields the original event. -/
theorem fsEvent_serialization_roundtrip :
    FsEvent.toJson ⟨"create", ["/tmp/x"]⟩ =
      Json.obj [("kind", Json.str "create"),
                ("paths", Json.arr [Json.str "/tmp/x"])] ∧
    FsEvent.fromJsonSpec
        (Json.obj [("kind", Json.str "create"),
                   ("paths", Json.arr [Json.str "/tmp/x"])]) =
      some ⟨"create", ["/tmp/x"]⟩ :=
  ⟨rfl, rfl⟩

/-- C1: for a handle present in the table, `op_fs_events_poll` resolves to
exactly one of three shapes — `{value, done:false}` when the next channel
item is a delivered `FsEvent`, the producer's error when the next item is an
error, `{done:true}` when the channel is closed and empty — and for a handle
not present it resolves to the terminal "bad resource id" error. -/
theorem opPoll_result_cases (t : Registry) (rid : Nat) :
    (t.find rid = none → (opFsEventsPoll t rid).1 = .err .badResourceId) ∧
    (∀ res v rest, t.find rid = some res →
      res.receiver.queue = Except.ok v :: rest →
      (opFsEventsPoll t rid).1 = .ok (valueJson v)) ∧
    (∀ res e rest, t.find rid = some res →
      res.receiver.queue = Except.error e :: rest →
      (opFsEventsPoll t rid).1 = .err e) ∧
    (∀ res, t.find rid = some res → res.receiver.queue = [] →
      res.receiver.closed = true →
      (opFsEventsPoll t rid).1 = .ok doneJson) := by
  refine ⟨fun h => by simp [opFsEventsPoll, h], ?_, ?_, ?_⟩
  · intro res v rest h hq
    simp [opFsEventsPoll, h, Channel.pollRecv, hq]
  · intro res e rest h hq
    simp [opFsEventsPoll, h, Channel.pollRecv, hq]
  · intro res h hq hc
    simp [opFsEventsPoll, h, Channel.pollRecv, hq, hc]

/-- Witness for C1 at concrete tables: an empty table gives the
bad-resource-id error; a table whose resource 1 has a queued `Ok` event
gives `{value, done:false}`; one with a queued producer error gives that
error; one whose channel is empty and closed gives `{done:true}`. -/
theorem opPoll_result_cases_witness :
    (opFsEventsPoll [] 0).1 = .err .badResourceId ∧
    (opFsEventsPoll [(1, ⟨["/a"], ⟨[Except.ok ⟨"create", ["/a"]⟩], false⟩⟩)] 1).1 =
      .ok (valueJson ⟨"create", ["/a"]⟩) ∧
    (opFsEventsPoll [(2, ⟨[], ⟨[Except.error (.notify "overflow")], false⟩⟩)] 2).1 =
      .err (.notify "overflow") ∧
    (opFsEventsPoll [(3, ⟨[], ⟨[], true⟩⟩)] 3).1 = .ok doneJson :=
  ⟨(opPoll_result_cases [] 0).1 rfl,
   (opPoll_result_cases _ 1).2.1 _ _ _ rfl rfl,
   (opPoll_result_cases _ 2).2.2.1 _ _ _ rfl rfl,
   (opPoll_result_cases _ 3).2.2.2 _ rfl rfl rfl⟩

theorem find_remove_self (t : Registry) (rid : Nat) :
    (t.remove rid).find rid = none := by
  induction t with
  | nil => rfl
  | cons hd tl ih =>
    obtain ⟨k, r⟩ := hd
    by_cases hk : k = rid <;> simp [Registry.remove, Registry.find, hk, ih]

/-- C6 counterexample: with the single-entry table `[(1, bridge)]`, after
removing handle 1 a poll on handle 1 resolves to the "bad resource id"
error — not to `{done:true}` as the claim states. -/
theorem poll_after_remove_not_eos :
    (opFsEventsPoll (Registry.remove
        [(1, ⟨["/a"], Channel.empty⟩)] 1) 1).1 = .err .badResourceId ∧
    ¬ (opFsEventsPoll (Registry.remove
        [(1, ⟨["/a"], Channel.empty⟩)] 1) 1).1 = .ok doneJson :=
  ⟨rfl, fun h => nomatch h⟩

/-- C6 amended: after a bridge's handle is removed from the registry, any
previously-suspended poll on that handle (which re-looks the handle up when
it runs) and every subsequent poll resolve to the terminal "bad resource id"
error, and leave the table unchanged — an idempotent terminal state. -/
theorem poll_after_remove_bad_resource (t : Registry) (rid : Nat) :
    opFsEventsPoll (t.remove rid) rid = (.err .badResourceId, t.remove rid) := by
  simp [opFsEventsPoll, find_remove_self]

theorem sendAll_queue {α : Type} :
    ∀ (xs : List α) (q : List α),
      (Channel.sendAll ⟨q, false⟩ xs).queue = q ++ xs.take (chanCapacity - q.length) ∧
      (Channel.sendAll ⟨q, false⟩ xs).closed = false := by
  intro xs
  induction xs with
  | nil => intro q; simp [Channel.sendAll]
  | cons x xs ih =>
    intro q
    have hstep : Channel.sendAll (⟨q, false⟩ : Channel α) (x :: xs) =
        Channel.sendAll (Channel.trySend ⟨q, false⟩ x) xs := rfl
    by_cases h1 : q.length < chanCapacity
    · have htry : Channel.trySend (⟨q, false⟩ : Channel α) x = ⟨q ++ [x], false⟩ := by
        simp [Channel.trySend, h1]
      rw [hstep, htry]
      obtain ⟨ihq, ihc⟩ := ih (q ++ [x])
      refine ⟨?_, ihc⟩
      rw [ihq]
      have h2 : chanCapacity - q.length = (chanCapacity - (q ++ [x]).length) + 1 := by
        simp
        omega
      rw [h2]
      simp
    · have htry : Channel.trySend (⟨q, false⟩ : Channel α) x = ⟨q, false⟩ := by
        simp [Channel.trySend, h1]
      rw [hstep, htry]
      obtain ⟨ihq, ihc⟩ := ih q
      refine ⟨?_, ihc⟩
      rw [ihq]
      have h2 : chanCapacity - q.length = 0 := by omega
      simp [h2]

theorem drainReady_all {α : Type} :
    ∀ (l : List α) (cl : Bool) (fuel : Nat), l.length ≤ fuel →
      Channel.drainReady ⟨l, cl⟩ fuel = l := by
  intro l
  induction l with
  | nil =>
    intro cl fuel _
    cases fuel with
    | zero => rfl
    | succ f => cases cl <;> rfl
  | cons x xs ih =>
    intro cl fuel h
    cases fuel with
    | zero => simp at h
    | succ f =>
      have hstep : Channel.drainReady (⟨x :: xs, cl⟩ : Channel α) (f + 1) =
          x :: Channel.drainReady ⟨xs, cl⟩ f := rfl
      have h' : xs.length ≤ f := by
        simp at h
        omega
      rw [hstep, ih cl f h']

/-- C2: sending more than 16 items into a fresh bridge's channel before any
poll leaves exactly the first 16 retrievable, in FIFO (production) order;
the overflow is silently dropped — `trySend` is a total function that never
blocks, never retries and returns no error, so the producer observes
nothing. Draining by repeated `poll_recv` returns exactly those 16 items in
order. -/
theorem channel_overflow_keeps_first_16 (items : List Item)
    (h : chanCapacity < items.length) :
    (Channel.empty.sendAll items).queue = items.take chanCapacity ∧
    (Channel.empty.sendAll items).drainReady items.length = items.take chanCapacity := by
  have hq : (Channel.sendAll (Channel.empty : Channel Item) items).queue =
      [] ++ items.take (chanCapacity - ([] : List Item).length) :=
    (sendAll_queue items []).1
  have hc : (Channel.sendAll (Channel.empty : Channel Item) items).closed = false :=
    (sendAll_queue items []).2
  have hch : Channel.sendAll (Channel.empty : Channel Item) items =
      ⟨items.take chanCapacity, false⟩ := by
    cases hsa : Channel.sendAll (Channel.empty : Channel Item) items with
    | mk qf clf =>
      rw [hsa] at hq hc
      simp at hq hc
      simp [hq, hc]
  refine ⟨by rw [hch], ?_⟩
  rw [hch]
  exact drainReady_all _ _ _ (by rw [List.length_take]; omega)

/-- Witness for C2 at a concrete burst of 17 distinct items: 17 exceeds the
capacity, and exactly the first 16, in order, remain queued and drain out. -/
theorem channel_overflow_keeps_first_16_witness :
    chanCapacity <
      ((List.range 17).map
        (fun i => (Except.ok ⟨"modify", [toString i]⟩ : Item))).length ∧
    (Channel.empty.sendAll
        ((List.range 17).map
          (fun i => (Except.ok ⟨"modify", [toString i]⟩ : Item)))).queue =
      ((List.range 17).map
        (fun i => (Except.ok ⟨"modify", [toString i]⟩ : Item))).take chanCapacity ∧
    (Channel.empty.sendAll
        ((List.range 17).map
          (fun i => (Except.ok ⟨"modify", [toString i]⟩ : Item)))).drainReady
        ((List.range 17).map
          (fun i => (Except.ok ⟨"modify", [toString i]⟩ : Item))).length =
      ((List.range 17).map
        (fun i => (Except.ok ⟨"modify", [toString i]⟩ : Item))).take chanCapacity :=
  ⟨by decide,
   (channel_overflow_keeps_first_16 _ (by decide)).1,
   (channel_overflow_keeps_first_16 _ (by decide)).2⟩

theorem isInteresting_valueJson (v : FsEvent) :
    isInterestingRes (valueJson v) = interestingKind v.kind := rfl

theorem isInteresting_doneJson : isInterestingRes doneJson = false := rfl

/-- C3: `file_watcher` never returns on an `"access"` or `"any"` event — it
discards the event and polls again — and over a stream of delivered events
it returns exactly the first one whose kind is create, modify or remove
(wrapped as `{value, done:false}`), `ok none` (still looping) if there is
none. In particular, on `[any, access, modify]` it returns the `modify`
event; the `any` and `access` events never reach the caller. -/
theorem fileWatcher_returns_first_interesting :
    (∀ es : List FsEvent,
      fileWatcher (es.map StreamItem.event) =
        .ok ((es.find? (fun e => interestingKind e.kind)).map valueJson)) ∧
    fileWatcher [.event ⟨"any", ["/p"]⟩, .event ⟨"access", ["/p"]⟩,
                 .event ⟨"modify", ["/p"]⟩] =
      .ok (some (valueJson ⟨"modify", ["/p"]⟩)) := by
  refine ⟨?_, rfl⟩
  intro es
  induction es with
  | nil => rfl
  | cons e es ih =>
    show (if isInterestingRes (valueJson e) then _ else fileWatcher (es.map .event)) = _
    rw [isInteresting_valueJson]
    cases hk : interestingKind e.kind with
    | false => simp [List.find?, hk, ih]
    | true => simp [List.find?, hk]

/-- C4: when `file_watcher` observes end-of-stream it does not terminate —
the loop re-enters its body, which builds a brand-new bridge over the same
paths, so the `{done:true}` resolution is skipped and polling resumes; the
loop terminates only on a qualifying event (returned) or an error item
(propagated via `?`). In particular, on `[access, <end-of-stream>, create]`
it returns the `create` event. -/
theorem fileWatcher_reopens_on_end_of_stream :
    (∀ rest, fileWatcher (.endOfStream :: rest) = fileWatcher rest) ∧
    (∀ (e : Err) (rest : List StreamItem), fileWatcher (.error e :: rest) = .error e) ∧
    fileWatcher [.event ⟨"access", ["/p"]⟩, .endOfStream, .event ⟨"create", ["/p"]⟩] =
      .ok (some (valueJson ⟨"create", ["/p"]⟩)) :=
  ⟨fun _ => rfl, fun _ _ => rfl, rfl⟩

theorem registerPaths_none_checked
    (watchFn : Path → RecursiveMode → Except Err Unit) (mode : RecursiveMode) :
    ∀ paths, (registerPaths watchFn none mode paths).2.1 = [] := by
  intro paths
  induction paths with
  | nil => rfl
  | cons p rest ih =>
    cases hw : watchFn p mode with
    | error e => simp [registerPaths, hw]
    | ok u => simp [registerPaths, hw, ih]

theorem registerPaths_none_all_ok
    (watchFn : Path → RecursiveMode → Except Err Unit) (mode : RecursiveMode) :
    ∀ paths, (∀ p ∈ paths, watchFn p mode = .ok ()) →
      registerPaths watchFn none mode paths = (.ok (), [], paths) := by
  intro paths
  induction paths with
  | nil => intro _; rfl
  | cons p rest ih =>
    intro h
    have hp := h p (by simp)
    have hrest : ∀ q ∈ rest, watchFn q mode = .ok () := fun q hq => h q (by simp [hq])
    simp [registerPaths, hp, ih hrest]

/-- C10: each iteration of `file_watcher`'s loop consumes exactly one item
from the bridge it has just built, and the bridge — with everything still
queued in its channel — is then dropped: the segment-level model agrees
with the one-item-per-iteration model on the heads of the segments, and the
items queued behind the head are irrelevant to the result. The bridge is
built by `create_resource` with mode `Recursive` and no state, so no
permission check runs (the checked-path log is empty) and, when the watcher
accepts every path, the bridge registers exactly the given paths with an
empty channel. -/
theorem fileWatcher_consumes_one_item_per_bridge :
    (∀ segs : List (List StreamItem), (∀ seg ∈ segs, seg ≠ []) →
      fileWatcherSegs segs = fileWatcher (segs.filterMap List.head?)) ∧
    (∀ (i : StreamItem) (extra1 extra2 : List StreamItem)
       (rest : List (List StreamItem)),
      fileWatcherSegs ((i :: extra1) :: rest) = fileWatcherSegs ((i :: extra2) :: rest)) ∧
    (∀ (watchFn : Path → RecursiveMode → Except Err Unit) (paths : List Path),
      (createResource watchFn paths RecursiveMode.Recursive none).2.1 = []) ∧
    (∀ (watchFn : Path → RecursiveMode → Except Err Unit) (paths : List Path),
      (∀ p ∈ paths, watchFn p RecursiveMode.Recursive = .ok ()) →
      (createResource watchFn paths RecursiveMode.Recursive none).1 =
        .ok ⟨paths, Channel.empty⟩) := by
  refine ⟨?_, fun i e1 e2 rest => rfl, ?_, ?_⟩
  · intro segs h
    induction segs with
    | nil => rfl
    | cons seg rest ih =>
      have hne : seg ≠ [] := h seg (by simp)
      obtain ⟨i, extra, rfl⟩ : ∃ i extra, seg = i :: extra := by
        cases seg with
        | nil => exact absurd rfl hne
        | cons a b => exact ⟨a, b, rfl⟩
      have hrest : ∀ s ∈ rest, s ≠ [] := fun s hs => h s (by simp [hs])
      cases i with
      | error e => rfl
      | endOfStream =>
        show fileWatcherSegs rest = _
        rw [ih hrest]
        rfl
      | event v =>
        show (if isInterestingRes (valueJson v) then Except.ok (some (valueJson v))
              else fileWatcherSegs rest) = _
        rw [ih hrest]
        rfl
  · intro watchFn paths
    have h := registerPaths_none_checked watchFn RecursiveMode.Recursive paths
    unfold createResource
    cases hreg : registerPaths watchFn none RecursiveMode.Recursive paths with
    | mk r p2 =>
      rw [hreg] at h
      obtain ⟨cs, rs⟩ := p2
      cases r <;> simpa using h
  · intro watchFn paths h
    simp [createResource, registerPaths_none_all_ok watchFn RecursiveMode.Recursive paths h]

/-- Witness for C10 at concrete inputs: two nonempty segments agree with the
head-only stream, and `create_resource` over `["/a", "/b"]` with an
always-accepting watcher and no state builds the bridge over exactly those
paths. -/
theorem fileWatcher_consumes_one_item_per_bridge_witness :
    fileWatcherSegs [[.event ⟨"any", []⟩, .event ⟨"create", ["/q"]⟩],
                     [.event ⟨"create", ["/c"]⟩]] =
      fileWatcher ([[StreamItem.event ⟨"any", []⟩, .event ⟨"create", ["/q"]⟩],
                    [.event ⟨"create", ["/c"]⟩]].filterMap List.head?) ∧
    (createResource (fun _ _ => .ok ()) ["/a", "/b"] RecursiveMode.Recursive none).1 =
      .ok ⟨["/a", "/b"], Channel.empty⟩ :=
  ⟨fileWatcher_consumes_one_item_per_bridge.1 _ (by decide),
   fileWatcher_consumes_one_item_per_bridge.2.2.2 _ ["/a", "/b"]
     (fun p _ => rfl)⟩

theorem registerPaths_reject
    (watchFn : Path → RecursiveMode → Except Err Unit)
    (ck : Path → Except Err Unit) (mode : RecursiveMode) (e : Err) :
    ∀ (pre : List Path) (bad : Path) (post : List Path),
      (∀ p ∈ pre, ck p = .ok () ∧ watchFn p mode = .ok ()) →
      ck bad = .error e →
      registerPaths watchFn (some ck) mode (pre ++ bad :: post) =
        (.error e, pre ++ [bad], pre) := by
  intro pre
  induction pre with
  | nil =>
    intro bad post _ hbad
    simp [registerPaths, hbad]
  | cons p pre ih =>
    intro bad post hpre hbad
    have hp := hpre p (by simp)
    have hpre' : ∀ q ∈ pre, ck q = .ok () ∧ watchFn q mode = .ok () :=
      fun q hq => hpre q (by simp [hq])
    simp [registerPaths, hp.1, hp.2, ih bad post hpre' hbad]

/-- C5 counterexample: `open-watch` over `["/a", "/b"]`, where the
authorization check rejects `"/b"` (the second path), returns that path's
error — but it has already registered `"/a"` with the underlying watcher,
so the number of paths registered is not zero as the claim states. -/
theorem open_rejected_registers_earlier_paths :
    (opFsEventsOpen (fun _ _ => .ok ())
        (fun p => if p = "/b" then .error (.permission "/b") else .ok ())
        ["/a", "/b"] true []).1 = .error (.permission "/b") ∧
    (opFsEventsOpen (fun _ _ => .ok ())
        (fun p => if p = "/b" then .error (.permission "/b") else .ok ())
        ["/a", "/b"] true []).2.2 = ["/a"] ∧
    ¬ (opFsEventsOpen (fun _ _ => .ok ())
        (fun p => if p = "/b" then .error (.permission "/b") else .ok ())
        ["/a", "/b"] true []).2.2 = ([] : List Path) :=
  ⟨rfl, rfl, by decide⟩

/-- C5 amended: when the authorization check accepts every path before the
rejected one (and the watcher accepts them) and rejects `bad`, `open-watch`
fails with `bad`'s authorization error; the rejected path and every path
after it are never registered, no path after the rejected one is even
checked, and exactly the paths before the rejected one were registered —
registrations that are abandoned when the error propagates and the bridge
value (which never escapes: the result carries no resource) is discarded, so
no subscription outlives the call. -/
theorem open_first_rejection_wins
    (watchFn : Path → RecursiveMode → Except Err Unit)
    (ck : Path → Except Err Unit) (e : Err)
    (pre : List Path) (bad : Path) (post : List Path)
    (recursive : Bool) (t : Registry)
    (hpre : ∀ p ∈ pre, ck p = .ok () ∧
      watchFn p (if recursive then RecursiveMode.Recursive
                 else RecursiveMode.NonRecursive) = .ok ())
    (hbad : ck bad = .error e) :
    opFsEventsOpen watchFn ck (pre ++ bad :: post) recursive t =
      (.error e, pre ++ [bad], pre) := by
  simp [opFsEventsOpen, createResource,
    registerPaths_reject watchFn ck _ e pre bad post hpre hbad]

/-- Witness for C5's amended statement at the concrete input
`["/a", "/b"]` with `"/b"` rejected: the call fails with `"/b"`'s error,
checked exactly `["/a", "/b"]`, and registered exactly `["/a"]`. -/
theorem open_first_rejection_wins_witness :
    opFsEventsOpen (fun _ _ => .ok ())
        (fun p => if p = "/b" then .error (.permission "/b") else .ok ())
        (["/a"] ++ "/b" :: []) true [] =
      (.error (.permission "/b"), ["/a"] ++ ["/b"], ["/a"]) :=
  open_first_rejection_wins (fun _ _ => .ok ())
    (fun p => if p = "/b" then .error (.permission "/b") else .ok ())
    (.permission "/b") ["/a"] "/b" [] true []
    (by intro p hp; simp at hp; subst hp; exact ⟨by decide, rfl⟩)
    (by decide)

end FsEvents
